import Mathlib

/-
Verification development for the multiscan-driver repository
(src/src/multiscan_driver.cpp).  The UDP ingestion / frame-reassembly
pipeline of `MultiscanNode::run_receiver`, the point-field layout macro
arithmetic, and the start/shutdown lifecycle are shallowly embedded below.
Machine integers are modelled as `Nat` with explicit `% 2 ^ w` where the
source can overflow; `double`-valued timeouts and clock readings are
modelled as rationals; fallible operations (C++ undefined behaviour such
as an out-of-range `std::array` subscript or `front()` on an empty deque,
and `std::thread::join` on a non-joinable thread) return `Option`, with
`none` marking the undefined case.  External sick_scan_xd collaborators
(the segment decoder, the compact probe `ParseSegment`, `crc32`,
`Convert4Byte`) are parameters of the embedded pipeline: the claims under
verification only constrain how multiscan_driver.cpp uses their results.
-/

namespace Multiscan

/-! ## Point-field layout macro arithmetic (multiscan_driver.cpp lines 24-56) -/

/-- Source constant `POINT_FIELD_ENABLE_UP_TO_XYZ` (line 25). -/
def POINT_FIELD_ENABLE_UP_TO_XYZ : Nat := 0

/-- Source constant `POINT_FIELD_ENABLE_UP_TO_INTENSITY` (line 26), documented
in the source as enabling "xyz, intensity". -/
def POINT_FIELD_ENABLE_UP_TO_INTENSITY : Nat := 1

/-- Source constant `POINT_FIELD_ENABLE_UP_TO_RANGE` (line 27). -/
def POINT_FIELD_ENABLE_UP_TO_RANGE : Nat := 2

/-- Source constant `POINT_FIELD_ENABLE_UP_TO_ANGULAR` (line 28). -/
def POINT_FIELD_ENABLE_UP_TO_ANGULAR : Nat := 3

/-- Source constant `POINT_FIELD_ENABLE_UP_TO_POINT_IDX` (line 29). -/
def POINT_FIELD_ENABLE_UP_TO_POINT_IDX : Nat := 4

/-- Source constant `POINT_FIELD_ENABLE_TS` (line 31). -/
def POINT_FIELD_ENABLE_TS : Nat := 8

/-- Source constant `POINT_FIELD_ENABLE_REFLECTOR` (line 32). -/
def POINT_FIELD_ENABLE_REFLECTOR : Nat := 16

/-- Source constant `POINT_FIELD_ENABLE_ALL` (line 34): bitwise or of
`UP_TO_POINT_IDX`, `TS` and `REFLECTOR`. -/
def POINT_FIELD_ENABLE_ALL : Nat :=
  POINT_FIELD_ENABLE_UP_TO_POINT_IDX ||| POINT_FIELD_ENABLE_TS |||
    POINT_FIELD_ENABLE_REFLECTOR

/-- The macro `NUM_CONTIGUOUS_POINT_FIELDS` (lines 43-50), transcribed exactly:
each C boolean comparison `(enabled & 4) >= k` contributes 1 when true, and the
last two comparisons are scaled by 2 and 3 respectively.  Note that the source
masks with `& 4` (bit 2 only), not with `& 7`. -/
def NUM_CONTIGUOUS_POINT_FIELDS (enabled : Nat) : Nat :=
  3 + (if 1 ≤ enabled &&& 4 then 1 else 0) + (if 2 ≤ enabled &&& 4 then 1 else 0) +
    (if 3 ≤ enabled &&& 4 then 1 else 0) * 2 + (if 4 ≤ enabled &&& 4 then 1 else 0) * 3

/-- The macro `NUM_POINT_FIELDS` (lines 51-56): the contiguous count plus 2
when the 64-bit local timestamp group is enabled and 1 when the reflector
group is enabled. -/
def NUM_POINT_FIELDS (enabled : Nat) : Nat :=
  NUM_CONTIGUOUS_POINT_FIELDS enabled +
    (if 0 < enabled &&& POINT_FIELD_ENABLE_TS then 1 else 0) * 2 +
    (if 0 < enabled &&& POINT_FIELD_ENABLE_REFLECTOR then 1 else 0)

/-- The constant `POINT_BYTE_LEN = NUM_POINT_FIELDS * 4` (line 432): the byte
stride of one emitted point record. -/
def POINT_BYTE_LEN (enabled : Nat) : Nat := NUM_POINT_FIELDS enabled * 4

/-! ## Decoded segment data model (sick_scansegment_xd::ScanSegmentParserOutput)

The struct itself comes from the external sick_scan_xd collaborator; only the
fields that multiscan_driver.cpp reads are modelled.  The per-point float
payload (x, y, z, intensity, ...) is never branched on by the driver - it is
only copied byte-wise into the output buffer - so a point is modelled as an
opaque record. -/

/-- One decoded point.  Its float payload is opaque to the driver. -/
structure ScanPoint where
  deriving DecidableEq

/-- One scanline: a list of points. -/
structure ScanSegmentScanline where
  points : List ScanPoint
  deriving DecidableEq

/-- One point group (`scandata` element): a list of scanlines. -/
structure ScanSegmentScandata where
  scanlines : List ScanSegmentScanline
  deriving DecidableEq

/-- The decoded segment as used by `run_receiver`: the nested point groups,
the capture timestamp split into seconds and nanoseconds, and the segment
index.  The IMU sample is irrelevant to the accumulator claims and omitted. -/
structure ScanSegmentParserOutput where
  scandata : List ScanSegmentScandata
  timestamp_sec : Nat
  timestamp_nsec : Nat
  segmentIndex : Nat
  deriving DecidableEq

/-- Total number of points carried by a segment: the source iterates
`scandata` -> `scanlines` -> `points` (lines 443-447) appending one record per
point. -/
def segPointCount (seg : ScanSegmentParserOutput) : Nat :=
  (seg.scandata.map (fun g => (g.scanlines.map (fun l => l.points.length)).sum)).sum

/-- The per-segment timestamp used by the frame builder (line 440):
`uint64_t(timestamp_sec) * 1000000000 + uint64_t(timestamp_nsec)`, with
`uint64_t` wrap-around made explicit. -/
def segTs (seg : ScanSegmentParserOutput) : Nat :=
  (seg.timestamp_sec * 1000000000 + seg.timestamp_nsec) % 2 ^ 64

/-- Initial value of `earliest_ts` (line 436): `uint64_t` maximum. -/
def UINT64_MAX : Nat := 2 ^ 64 - 1

/-! ## Ring-buffer assembler state (lines 294-295) -/

/-- The accumulator owned by the ingestion loop: the twelve per-index deques
`samples` (front of the deque = head of the list) and the presence mask
`filled_segments`. -/
structure AssemblerState where
  samples : Fin 12 → List ScanSegmentParserOutput
  filled_segments : Nat

instance : DecidableEq AssemblerState := fun a b =>
  decidable_of_iff
    (a.samples = b.samples ∧ a.filled_segments = b.filled_segments)
    (by cases a; cases b; simp)

/-- The accumulator right after initialisation (line 294-295) and right after
a frame is consumed: all slots empty, mask zero. -/
def resetState : AssemblerState := { samples := fun _ => [], filled_segments := 0 }

/-- Absorption of one decoded segment (lines 414-424).  When `scandata` is
non-empty the slot `samples[segmentIndex]` gets the segment pushed at the
front and is truncated to `max_segment_buffering` entries, and presence bit
`segmentIndex` is or-ed into the mask.  The source performs
`samples[idx]` with no bounds check, so an index `≥ 12` is undefined
behaviour (`none`); likewise `max_segment_buffering = 0` makes the
`swapSegmentsNoIMU(samples[idx].front(), ...)` call on line 422 touch the
front of a deque that `resize(0)` just emptied (`none`). -/
def absorbSegment (max_segment_buffering : Nat) (st : AssemblerState)
    (seg : ScanSegmentParserOutput) : Option AssemblerState :=
  if 0 < seg.scandata.length then
    if h : seg.segmentIndex < 12 then
      if 0 < max_segment_buffering then
        some { samples := Function.update st.samples ⟨seg.segmentIndex, h⟩
                 ((seg :: st.samples ⟨seg.segmentIndex, h⟩).take max_segment_buffering),
               filled_segments := st.filled_segments ||| (1 <<< seg.segmentIndex) }
      else none
    else none
  else some st

/-- Absorption of a list of segments in arrival order, failing as soon as one
absorption is undefined. -/
def absorbAll (max_segment_buffering : Nat) (st : AssemblerState) :
    List ScanSegmentParserOutput → Option AssemblerState
  | [] => some st
  | s :: rest =>
    match absorbSegment max_segment_buffering st s with
    | none => none
    | some st1 => absorbAll max_segment_buffering st1 rest

/-- Total restatement of `absorbSegment` used for the inductive proofs; it
agrees with `absorbSegment` whenever the segment index is in range and the
configured depth is positive (`absorbSegment_eq_total`). -/
def absorbTotal (max_segment_buffering : Nat) (st : AssemblerState)
    (seg : ScanSegmentParserOutput) : AssemblerState :=
  if h : seg.segmentIndex < 12 then
    if 0 < seg.scandata.length then
      { samples := Function.update st.samples ⟨seg.segmentIndex, h⟩
          ((seg :: st.samples ⟨seg.segmentIndex, h⟩).take max_segment_buffering),
        filled_segments := st.filled_segments ||| (1 <<< seg.segmentIndex) }
    else st
  else st

/-- Slot `i` has been touched by the list of absorbed segments: some segment
with index `i` and a non-empty point-group list occurs in it. -/
def segTouches (segs : List ScanSegmentParserOutput) (i : Nat) : Prop :=
  ∃ s ∈ segs, s.segmentIndex = i ∧ s.scandata ≠ []

instance (segs : List ScanSegmentParserOutput) (i : Nat) :
    Decidable (segTouches segs i) := by
  unfold segTouches; infer_instance

/-! ## Frame builder (lines 426-481) -/

/-- The emitted point-cloud message metadata (lines 429-478).  The point byte
payload is float data the driver only copies, so the model keeps its length
(`data_len = scan.data.size()`). -/
structure PointCloud2Msg where
  data_len : Nat
  point_step : Nat
  row_step : Nat
  height : Nat
  width : Nat
  stamp_sec : Nat
  stamp_nsec : Nat
  is_bigendian : Bool
  is_dense : Bool
  deriving DecidableEq

/-- The running-minimum fold of the frame-builder loop (lines 436-441):
`if (ts < earliest_ts) earliest_ts = ts` over the visited slots. -/
def foldMinNat (g : Fin 12 → Nat) (l : List (Fin 12)) (init : Nat) : Nat :=
  l.foldl (fun acc i => if g i < acc then g i else acc) init

/-- The frame builder (lines 426-481).  The single source loop over the twelve
slots computes three independent quantities - the byte buffer (here its
length), the minimum front timestamp, and the cleared slots - modelled as
three folds over the same index list.  `front()` of an empty slot is
undefined behaviour (`none`).  After the loop the source publishes and zeroes
the mask (line 481). -/
def buildFrame (enabled : Nat) (st : AssemblerState) :
    Option (PointCloud2Msg × AssemblerState) :=
  if h : ∀ i : Fin 12, st.samples i ≠ [] then
    let earliest :=
      foldMinNat (fun i => segTs ((st.samples i).head (h i))) (List.finRange 12) UINT64_MAX
    let dataLen :=
      ((List.finRange 12).map
        (fun i => segPointCount ((st.samples i).head (h i)) * POINT_BYTE_LEN enabled)).sum
    some ({ data_len := dataLen,
            point_step := POINT_BYTE_LEN enabled,
            row_step := dataLen,
            height := 1,
            width := dataLen / POINT_BYTE_LEN enabled,
            stamp_sec := earliest / 1000000000,
            stamp_nsec := earliest % 1000000000,
            is_bigendian := false,
            is_dense := true },
          { samples := (List.finRange 12).foldl (fun f i => Function.update f i []) st.samples,
            filled_segments := 0 })
  else none

/-- One `// process` step for an already decoded segment (lines 414-482):
absorb it, then, when the presence mask passes the completeness test
`filled_segments >= (1 << 12) - 1` (line 426), build and emit the frame. -/
def processSegment (enabled max_segment_buffering : Nat) (st : AssemblerState)
    (seg : ScanSegmentParserOutput) :
    Option (AssemblerState × Option PointCloud2Msg) :=
  match absorbSegment max_segment_buffering st seg with
  | none => none
  | some st1 =>
    if (1 <<< 12) - 1 ≤ st1.filled_segments then
      match buildFrame enabled st1 with
      | none => none
      | some (f, st2) => some (st2, some f)
    else some (st1, none)

/-! ## CRC gate (lines 358-367) -/

/-- The payload offset of the CRC region (lines 315 and 349): for msgpack the
payload starts after the 4-byte start sequence and the 4-byte length field;
the compact format computes the CRC over the complete message. -/
def udpPayloadOffset (use_msgpack : Bool) : Nat :=
  if use_msgpack then 4 + 4 else 0

/-- The expected total datagram size (lines 314 and 348): payload plus start
sequence, length field and CRC for msgpack; payload plus CRC for compact. -/
def bytesToReceive (use_msgpack : Bool) (payload_length_bytes : Nat) : Nat :=
  if use_msgpack then payload_length_bytes + 4 + 2 * 4
  else payload_length_bytes + 4

/-- The CRC gate and hand-off to the decoder (lines 358-387).  `conv4` is the
external little-endian 4-byte reader `Convert4Byte` applied to the buffer
suffix it is pointed at, `crc32` the external checksum, `decode` the external
segment parser applied to the whole receive buffer.  On a checksum mismatch
the datagram is dropped (`continue`, line 366) leaving the accumulator
untouched; on a parse failure likewise (lines 377 and 385); otherwise the
decoded segment is processed. -/
def processChecked (conv4 crc32 : List Nat → Nat)
    (decode : List Nat → Option ScanSegmentParserOutput)
    (enabled max_segment_buffering : Nat)
    (udp_payload_offset bytes_to_receive : Nat)
    (st : AssemblerState) (buffer : List Nat) (bytes_received : Nat) :
    Option (AssemblerState × Option PointCloud2Msg) :=
  -- bytes_valid     = min bytes_received bytes_to_receive             (line 358)
  -- u32PayloadCRC   = conv4 of the 4 bytes at bytes_valid - 4         (line 359)
  -- msgpack_payload = buffer[udp_payload_offset .. bytes_valid - 4)   (line 360)
  -- u32MsgPackCRC   = crc32 msgpack_payload                           (line 361)
  if conv4 (buffer.drop (min bytes_received bytes_to_receive - 4)) ≠
      crc32 ((buffer.take (min bytes_received bytes_to_receive - 4)).drop
        udp_payload_offset) then
    some (st, none)
  else
    match decode buffer with
    | none => some (st, none)
    | some seg => processSegment enabled max_segment_buffering st seg

/-! ## Compact probe-based chunk accumulation (lines 319-347) -/

/-- Result of one probe call `CompactDataParser::ParseSegment(data, size, ...)`
(line 322): success with the discovered payload length, or a
`num_bytes_required` demand. -/
inductive ProbeResult where
  | success (payload_length_bytes : Nat)
  | need (num_bytes_required : Nat)
  deriving DecidableEq

/-- Outcome of the accumulation loop. `decoded` carries the accumulated buffer
and the probed payload length; `overCap` is the 1 MiB abort (lines 325-331),
taken after the diagnostic re-probe with debug output (line 329); `failed` is
loop exit without a successful probe (cancellation or elapsed per-datagram
timeout), which the source answers with `continue` (line 346). -/
inductive AccumResult where
  | decoded (buffer : List Nat) (payload_length_bytes : Nat)
  | overCap
  | failed
  deriving DecidableEq

/-- The inner chunk loop (lines 333-341): while fewer bytes than
`num_bytes_required + 4` (payload + CRC) are present, receive another chunk
and append it at the end of the valid region.  The buffer models only the
valid bytes, so `bytes_received = buffer.length`; an exhausted chunk supply
models receives that return no further data before the timeout. -/
def fillChunks (num_bytes_required : Nat) :
    List (List Nat) → List Nat → (List Nat × List (List Nat))
  | [], buffer => (buffer, [])
  | c :: rest, buffer =>
    if buffer.length < num_bytes_required + 4 then
      fillChunks num_bytes_required rest (buffer ++ c)
    else (buffer, c :: rest)

/-- The outer probe loop (lines 319-347): probe, and on failure either abort
over the 1 MiB cap or gather more chunks and re-probe.  The fuel bound models
the `is_running` flag and the per-datagram accumulation timeout that bound
the real loop; exhausting it yields the `parse_success == false` exit. -/
def accumulateCompact (probe : List Nat → ProbeResult) :
    Nat → List Nat → List (List Nat) → AccumResult
  | 0, _, _ => .failed
  | fuel + 1, buffer, chunks =>
    match probe buffer with
    | .success payload_length_bytes => .decoded buffer payload_length_bytes
    | .need num_bytes_required =>
      if 1024 * 1024 < num_bytes_required then .overCap
      else
        accumulateCompact probe fuel
          (fillChunks num_bytes_required chunks buffer).1
          (fillChunks num_bytes_required chunks buffer).2

/-- The compact-encoding datagram path: accumulate, then run the CRC gate with
offset 0 and expected size `payload + 4` (lines 348-349); an abandoned
accumulation is answered with `continue` (line 346), leaving the state
untouched. -/
def processCompactDatagram (probe : List Nat → ProbeResult)
    (conv4 crc32 : List Nat → Nat)
    (decode : List Nat → Option ScanSegmentParserOutput)
    (enabled max_segment_buffering fuel : Nat)
    (st : AssemblerState) (buffer : List Nat) (chunks : List (List Nat)) :
    Option (AssemblerState × Option PointCloud2Msg) :=
  match accumulateCompact probe fuel buffer chunks with
  | .decoded buf payload_length_bytes =>
    processChecked conv4 crc32 decode enabled max_segment_buffering
      0 (bytesToReceive false payload_length_bytes) st buf buf.length
  | _ => some (st, none)

/-! ## Adaptive receive-timeout update (lines 292-293 and 485-496) -/

/-- The receive-timer state of the ingestion loop: the `double` timeout passed
to `Receive` (negative means blocking, line 292) and the last-receive clock
(line 293), modelled over the rationals in seconds. -/
structure RecvLoopTimer where
  udp_recv_timeout : ℚ
  timestamp_last_udp_recv : ℚ
  deriving DecidableEq

/-- Initial timer state (lines 292-293): blocking timeout, clock read at loop
set-up time `t0`. -/
def initTimer (t0 : ℚ) : RecvLoopTimer :=
  { udp_recv_timeout := -1, timestamp_last_udp_recv := t0 }

/-- The guard of the datagram branch (lines 303-304): more than
start-sequence-size + 8 bytes received and the buffer begins with the start
sequence. -/
def datagramBranchTaken (bytes_received : Nat) (marker_ok : Bool) : Bool :=
  decide (4 + 8 < bytes_received) && marker_ok

/-- The timeout update of one loop iteration.  The source places lines
485-496 inside the datagram branch, so an iteration whose receive fails the
guard (in particular a zero-byte receive) changes neither the clock nor the
timeout.  Inside the branch, the clock is set to `now487` (the
`chrono_system_clock::now()` of line 487), then the elapsed time against
`now489` (line 489) selects blocking (`-1`) or the configured short timeout. -/
def updateRecvTimeout (udp_dropout_reset_thresh udp_receive_timeout : ℚ)
    (st : RecvLoopTimer) (bytes_received : Nat) (marker_ok : Bool)
    (now487 now489 : ℚ) : RecvLoopTimer :=
  if datagramBranchTaken bytes_received marker_ok then
    let st1 := if 0 < bytes_received then
        { st with timestamp_last_udp_recv := now487 } else st
    if udp_dropout_reset_thresh < now489 - st1.timestamp_last_udp_recv then
      { st1 with udp_recv_timeout := -1 }
    else
      { st1 with udp_recv_timeout := udp_receive_timeout }
  else st

/-! ## Node lifecycle (lines 103, 119-239, 525-533) -/

/-- The cross-thread lifecycle state of the node: the atomic `is_running` flag
(initialised `true` at the declaration, line 103) and whether the receiver
thread object is joinable. -/
structure MultiscanNodeState where
  is_running : Bool
  recv_thread_joinable : Bool
  deriving DecidableEq

/-- The `start()` member (lines 232-239): a no-op when a thread is already
joinable, otherwise raise the flag and launch the thread. -/
def startNode (s : MultiscanNodeState) : MultiscanNodeState :=
  if !s.recv_thread_joinable then
    { is_running := true, recv_thread_joinable := true }
  else s

/-- Construction (lines 119-225): member initialisers leave `is_running = true`
and the thread default-constructed (non-joinable); `start()` runs only under
`autostart`. -/
def mkMultiscanNode (autostart : Bool) : MultiscanNodeState :=
  let s : MultiscanNodeState := { is_running := true, recv_thread_joinable := false }
  if autostart then startNode s else s

/-- The `shutdown()` member (lines 525-533): guarded by
`is_running || recv_thread.joinable()`; inside the guard it lowers the flag,
cancels the socket wait and calls `recv_thread.join()`.  `join()` on a
non-joinable thread violates its precondition and throws
`std::system_error` (`none`). -/
def shutdownNode (s : MultiscanNodeState) : Option MultiscanNodeState :=
  if s.is_running || s.recv_thread_joinable then
    if s.recv_thread_joinable then
      some { is_running := false, recv_thread_joinable := false }
    else none
  else some s

/-! ## Concrete fixtures used by evaluation theorems and witnesses -/

/-- Synthetic decoded segment: one point group holding one scanline of
`npts` points. -/
def mkSeg (idx sec nsec npts : Nat) : ScanSegmentParserOutput :=
  { scandata := [{ scanlines := [{ points := List.replicate npts {} }] }],
    timestamp_sec := sec, timestamp_nsec := nsec, segmentIndex := idx }

/-- A complete accumulator: every slot holds one synthetic 900-point segment
(the nominal per-segment count, line 74), with distinct timestamps. -/
def stC2 : AssemblerState :=
  { samples := fun i => [mkSeg i.val 10 i.val 900],
    filled_segments := (1 <<< 12) - 1 }

/-! ## Theorems -/

/-- C10: `is_running` is initialised `true` (line 103), so on a node
constructed with `autostart = false` and never started, `shutdown()` passes
its guard (line 527) and calls `join()` on a non-joinable thread — the join
precondition fails for that input (modelled as `none`).  With `autostart`
the same call shuts down cleanly. -/
theorem c10_shutdown_without_start_joins_nonjoinable :
    (mkMultiscanNode false).is_running = true ∧
    (mkMultiscanNode false).recv_thread_joinable = false ∧
    shutdownNode (mkMultiscanNode false) = none ∧
    shutdownNode (mkMultiscanNode true) =
      some { is_running := false, recv_thread_joinable := false } := by
  decide

/-- C1: the timeout update (lines 485-496) sits inside the valid-datagram
branch, so after a datagram at time 0 (which re-arms the short timeout, here
1 s) a zero-byte receive at time 5 s — far beyond the 2 s dropout threshold —
leaves the timer state untouched: the next `Receive` still uses the short
timeout instead of the unbounded one the spec requires, and the last-receive
clock (correctly) is not reset. -/
theorem c1_dropout_switch_never_fires :
    (updateRecvTimeout 2 1 (initTimer 0) 1000 true 0 0).udp_recv_timeout = 1 ∧
    updateRecvTimeout 2 1 (updateRecvTimeout 2 1 (initTimer 0) 1000 true 0 0) 0 false 5 5 =
      updateRecvTimeout 2 1 (initTimer 0) 1000 true 0 0 ∧
    (updateRecvTimeout 2 1 (updateRecvTimeout 2 1 (initTimer 0) 1000 true 0 0)
        0 false 5 5).udp_recv_timeout = 1 ∧
    2 < 5 - (updateRecvTimeout 2 1 (updateRecvTimeout 2 1 (initTimer 0) 1000 true 0 0)
        0 false 5 5).timestamp_last_udp_recv ∧
    (updateRecvTimeout 2 1 (updateRecvTimeout 2 1 (initTimer 0) 1000 true 0 0)
        0 false 5 5).udp_recv_timeout ≠ -1 := by
  have h1 : updateRecvTimeout 2 1 (initTimer 0) 1000 true 0 0 =
      { udp_recv_timeout := 1, timestamp_last_udp_recv := 0 } := by
    norm_num [updateRecvTimeout, initTimer, datagramBranchTaken]
  have h2 : updateRecvTimeout 2 1
      { udp_recv_timeout := 1, timestamp_last_udp_recv := 0 } 0 false 5 5 =
      { udp_recv_timeout := 1, timestamp_last_udp_recv := 0 } := by
    norm_num [updateRecvTimeout, datagramBranchTaken]
  refine ⟨?_, ?_, ?_, ?_, ?_⟩ <;> simp only [h1, h2] <;> norm_num

set_option maxRecDepth 20000 in
/-- C2: the layout macros mask the section selector with `& 4`, so the
configured xyz+intensity layout (`POINT_FIELD_ENABLE_UP_TO_INTENSITY = 1`)
collapses to the bare xyz layout: 3 scalar fields and a 12-byte stride, not
the 16 bytes the spec states; a no-drop run of 12 slots of 900 points emits
one frame of 10800 points at that 12-byte stride.  The default `ALL` layout
(28) gives the 52-byte stride noted in the source comment on line 433. -/
theorem c2_configured_intensity_layout_stride_is_12 :
    NUM_POINT_FIELDS POINT_FIELD_ENABLE_UP_TO_INTENSITY = 3 ∧
    POINT_BYTE_LEN POINT_FIELD_ENABLE_UP_TO_INTENSITY = 12 ∧
    POINT_BYTE_LEN POINT_FIELD_ENABLE_UP_TO_INTENSITY ≠ 16 ∧
    NUM_POINT_FIELDS POINT_FIELD_ENABLE_UP_TO_INTENSITY =
      NUM_POINT_FIELDS POINT_FIELD_ENABLE_UP_TO_XYZ ∧
    POINT_BYTE_LEN POINT_FIELD_ENABLE_ALL = 52 ∧
    (buildFrame POINT_FIELD_ENABLE_UP_TO_INTENSITY stC2).map
        (fun p => (p.1.point_step, p.1.width, p.1.data_len)) =
      some (12, 10800, 129600) := by
  refine ⟨by decide, by decide, by decide, by decide, by decide, ?_⟩
  decide

/-- C9: absorbing a decoded segment with a non-empty point-group list indexes
the twelve-slot array with the raw `segmentIndex` and no bounds check (lines
416-423): the step is well defined iff the index is below 12 (or nothing is
stored at all because `scandata` is empty), and an out-of-range index is
never rejected — it is undefined behaviour. -/
theorem c9_absorb_index_unchecked (m : Nat) (st : AssemblerState)
    (seg : ScanSegmentParserOutput) (hm : 0 < m) :
    ((absorbSegment m st seg).isSome ↔
      (seg.scandata.length = 0 ∨ seg.segmentIndex < 12)) ∧
    (0 < seg.scandata.length → ¬ seg.segmentIndex < 12 →
      absorbSegment m st seg = none) := by
  constructor
  · unfold absorbSegment
    by_cases h1 : 0 < seg.scandata.length
    · rw [if_pos h1]
      by_cases h2 : seg.segmentIndex < 12
      · rw [dif_pos h2, if_pos hm]
        simp [h2]
      · rw [dif_neg h2]
        simp [h2]
        exact List.ne_nil_of_length_pos h1
    · rw [if_neg h1]
      simp
      exact Or.inl (List.length_eq_zero.mp (by omega))
  · intro hl h2
    unfold absorbSegment
    rw [if_pos hl, dif_neg h2]

/-! ### Assembler helper lemmas -/

theorem absorbSegment_eq_total (m : Nat) (st : AssemblerState)
    (seg : ScanSegmentParserOutput) (hm : 0 < m) (hidx : seg.segmentIndex < 12) :
    absorbSegment m st seg = some (absorbTotal m st seg) := by
  unfold absorbSegment absorbTotal
  simp only [dif_pos hidx]
  by_cases h1 : 0 < seg.scandata.length <;> simp [h1, hm]

theorem absorbAll_eq_foldl (m : Nat) (hm : 0 < m)
    (segs : List ScanSegmentParserOutput) (st : AssemblerState)
    (hidx : ∀ s ∈ segs, s.segmentIndex < 12) :
    absorbAll m st segs = some (segs.foldl (absorbTotal m) st) := by
  induction segs generalizing st with
  | nil => rfl
  | cons s rest ih =>
    have h0 : absorbAll m st (s :: rest) =
        match absorbSegment m st s with
        | none => none
        | some st1 => absorbAll m st1 rest := rfl
    rw [h0, absorbSegment_eq_total m st s hm (hidx s (List.mem_cons_self s rest))]
    exact ih (absorbTotal m st s) (fun x hx => hidx x (List.mem_cons_of_mem s hx))

theorem foldl_absorbTotal_testBit (m : Nat) (segs : List ScanSegmentParserOutput)
    (st : AssemblerState) (j : Nat) (hidx : ∀ s ∈ segs, s.segmentIndex < 12) :
    (segs.foldl (absorbTotal m) st).filled_segments.testBit j =
      (st.filled_segments.testBit j || decide (segTouches segs j)) := by
  induction segs generalizing st with
  | nil => simp [segTouches]
  | cons s rest ih =>
    rw [List.foldl_cons,
      ih (absorbTotal m st s) (fun x hx => hidx x (List.mem_cons_of_mem s hx))]
    have hi : s.segmentIndex < 12 := hidx s (List.mem_cons_self s rest)
    unfold absorbTotal
    rw [dif_pos hi]
    by_cases h1 : 0 < s.scandata.length
    · rw [if_pos h1]
      have h2 : (1 <<< s.segmentIndex) = 2 ^ s.segmentIndex := by
        rw [Nat.shiftLeft_eq, one_mul]
      simp only [Nat.testBit_or, h2, Bool.or_assoc]
      congr 1
      by_cases hj : s.segmentIndex = j
      · subst hj
        have hne : s.scandata ≠ [] := List.ne_nil_of_length_pos h1
        simp [Nat.testBit_two_pow_self, segTouches, List.exists_mem_cons_iff, hne]
      · rw [Nat.testBit_two_pow_of_ne hj]
        simp [segTouches, List.exists_mem_cons_iff, hj]
    · rw [if_neg h1]
      have hnil : s.scandata = [] := by
        cases hsc : s.scandata with
        | nil => rfl
        | cons a l => exact absurd (by rw [hsc]; simp) h1
      congr 1
      simp [segTouches, List.exists_mem_cons_iff, hnil]

theorem foldl_absorbTotal_lt (m : Nat) (segs : List ScanSegmentParserOutput)
    (st : AssemblerState) (hidx : ∀ s ∈ segs, s.segmentIndex < 12)
    (hlt : st.filled_segments < 2 ^ 12) :
    (segs.foldl (absorbTotal m) st).filled_segments < 2 ^ 12 := by
  induction segs generalizing st with
  | nil => exact hlt
  | cons s rest ih =>
    rw [List.foldl_cons]
    refine ih (absorbTotal m st s) (fun x hx => hidx x (List.mem_cons_of_mem s hx)) ?_
    have hi : s.segmentIndex < 12 := hidx s (List.mem_cons_self s rest)
    unfold absorbTotal
    rw [dif_pos hi]
    by_cases h1 : 0 < s.scandata.length
    · rw [if_pos h1]
      refine Nat.or_lt_two_pow hlt ?_
      rw [Nat.shiftLeft_eq, one_mul]
      exact Nat.pow_lt_pow_right (by norm_num) hi
    · rw [if_neg h1]
      exact hlt

theorem take_append_take {α : Type} (m : Nat) (l1 l2 : List α) :
    (l1 ++ l2.take m).take m = (l1 ++ l2).take m := by
  rw [List.take_append_eq_append_take, List.take_append_eq_append_take, List.take_take]
  congr 1
  exact congrArg (fun k => List.take k l2) (min_eq_left (Nat.sub_le m l1.length))

theorem absorbTotal_samples_at (m : Nat) (st : AssemblerState)
    (s : ScanSegmentParserOutput) (i : Nat) (hi : i < 12)
    (heq : s.segmentIndex = i) (hne : s.scandata ≠ []) :
    (absorbTotal m st s).samples ⟨i, hi⟩ =
      (s :: st.samples ⟨i, hi⟩).take m := by
  subst heq
  unfold absorbTotal
  rw [dif_pos hi, if_pos (List.length_pos.mpr hne)]
  exact Function.update_same _ _ _

theorem foldl_absorbTotal_slot (m i : Nat) (hi : i < 12)
    (segs : List ScanSegmentParserOutput) (st : AssemblerState)
    (hall : ∀ s ∈ segs, s.segmentIndex = i ∧ s.scandata ≠ [])
    (hlen : (st.samples ⟨i, hi⟩).length ≤ m) :
    (segs.foldl (absorbTotal m) st).samples ⟨i, hi⟩ =
      (segs.reverse ++ st.samples ⟨i, hi⟩).take m := by
  induction segs generalizing st with
  | nil => simp [List.take_of_length_le hlen]
  | cons s rest ih =>
    obtain ⟨hseq, hsne⟩ := hall s (List.mem_cons_self s rest)
    rw [List.foldl_cons,
      ih (absorbTotal m st s) (fun x hx => hall x (List.mem_cons_of_mem s hx)) ?_,
      absorbTotal_samples_at m st s i hi hseq hsne]
    · rw [take_append_take, List.reverse_cons, List.append_assoc]
      rfl
    · rw [absorbTotal_samples_at m st s i hi hseq hsne, List.length_take]
      exact min_le_left _ _

theorem foldl_clear_preserve (l : List (Fin 12))
    (g : Fin 12 → List ScanSegmentParserOutput) (i : Fin 12) (h : i ∉ l) :
    (l.foldl (fun f j => Function.update f j []) g) i = g i := by
  induction l generalizing g with
  | nil => rfl
  | cons a l ih =>
    rw [List.foldl_cons, ih _ (fun hh => h (List.mem_cons_of_mem a hh))]
    exact Function.update_noteq
      (fun he => h (by rw [he]; exact List.mem_cons_self a l)) _ _

theorem foldl_clear_apply (l : List (Fin 12))
    (g : Fin 12 → List ScanSegmentParserOutput) (i : Fin 12) (h : i ∈ l) :
    (l.foldl (fun f j => Function.update f j []) g) i = [] := by
  induction l generalizing g with
  | nil => cases h
  | cons a l ih =>
    rw [List.foldl_cons]
    by_cases hi : i ∈ l
    · exact ih _ hi
    · have hia : i = a := by
        rcases List.mem_cons.mp h with h1 | h2
        · exact h1
        · exact absurd h2 hi
      subst hia
      rw [foldl_clear_preserve l _ i hi]
      exact Function.update_same _ _ _

set_option maxHeartbeats 2000000 in
/-- The state component produced by a successful `buildFrame`: slot-by-slot
clearing (line 466) leaves every slot empty, and line 481 zeroes the mask. -/
theorem buildFrame_state (enabled : Nat) (st1 : AssemblerState)
    (f : PointCloud2Msg) (st2 : AssemblerState)
    (h : buildFrame enabled st1 = some (f, st2)) :
    (∀ i : Fin 12, st2.samples i = []) ∧ st2.filled_segments = 0 := by
  unfold buildFrame at h
  split at h
  · cases h
    exact ⟨fun i => foldl_clear_apply _ _ i (List.mem_finRange i), rfl⟩
  · cases h

/-- Witness for C9: a segment with index 12 and one point is absorbed into
the reset accumulator. -/
theorem c9_absorb_index_unchecked_witness :
    ((absorbSegment 3 resetState (mkSeg 12 0 0 1)).isSome ↔
      ((mkSeg 12 0 0 1).scandata.length = 0 ∨ (mkSeg 12 0 0 1).segmentIndex < 12)) ∧
    (0 < (mkSeg 12 0 0 1).scandata.length → ¬ (mkSeg 12 0 0 1).segmentIndex < 12 →
      absorbSegment 3 resetState (mkSeg 12 0 0 1) = none) :=
  c9_absorb_index_unchecked 3 resetState (mkSeg 12 0 0 1) (by decide)

/-- C3: absorbing any in-range segment sequence into a freshly reset
accumulator sets presence bit `i` iff slot `i` was touched (received a
segment with a non-empty point-group list), independent of arrival order;
the completeness test `filled_segments >= (1 << 12) - 1` (line 426) passes
iff all twelve indices were touched, i.e. iff the mask equals all-ones. -/
theorem c3_presence_mask_invariant (m : Nat) (hm : 0 < m)
    (segs : List ScanSegmentParserOutput)
    (hidx : ∀ s ∈ segs, s.segmentIndex < 12) :
    ∃ st2, absorbAll m resetState segs = some st2 ∧
      (∀ i : Fin 12, st2.filled_segments.testBit i.val = true ↔ segTouches segs i.val) ∧
      ((1 <<< 12) - 1 ≤ st2.filled_segments ↔ ∀ i : Fin 12, segTouches segs i.val) ∧
      ((1 <<< 12) - 1 ≤ st2.filled_segments ↔ st2.filled_segments = (1 <<< 12) - 1) := by
  refine ⟨_, absorbAll_eq_foldl m hm segs resetState hidx, ?_⟩
  have hbit : ∀ j : Nat,
      (segs.foldl (absorbTotal m) resetState).filled_segments.testBit j =
        decide (segTouches segs j) := by
    intro j
    rw [foldl_absorbTotal_testBit m segs resetState j hidx]
    simp [resetState]
  have hlt : (segs.foldl (absorbTotal m) resetState).filled_segments < 2 ^ 12 :=
    foldl_absorbTotal_lt m segs resetState hidx (by simp [resetState])
  have hpow : (2 : Nat) ^ 12 = 4096 := by norm_num
  have hsh : (1 <<< 12) - 1 = 4095 := by decide
  have hiff : ∀ i : Fin 12,
      (segs.foldl (absorbTotal m) resetState).filled_segments.testBit i.val = true ↔
        segTouches segs i.val := by
    intro i
    rw [hbit i.val]
    exact decide_eq_true_iff
  refine ⟨hiff, ?_, ?_⟩
  · constructor
    · intro hge i
      have heq : (segs.foldl (absorbTotal m) resetState).filled_segments = 4095 := by
        omega
      refine (hiff i).mp ?_
      rw [heq]
      have h12 : ∀ k : Fin 12, Nat.testBit 4095 k.val = true := by decide
      exact h12 i
    · intro hall
      have heq : (segs.foldl (absorbTotal m) resetState).filled_segments = 2 ^ 12 - 1 := by
        refine Nat.eq_of_testBit_eq fun j => ?_
        rw [Nat.testBit_two_pow_sub_one]
        by_cases hj : j < 12
        · rw [hbit j, decide_eq_true hj]
          exact decide_eq_true (hall ⟨j, hj⟩)
        · rw [decide_eq_false hj]
          exact Nat.testBit_lt_two_pow
            (lt_of_lt_of_le hlt (Nat.pow_le_pow_right (by norm_num) (by omega)))
      omega
  · omega

/-- Segment list used by the C3 witness: one synthetic segment per index. -/
def segsC3 : List ScanSegmentParserOutput :=
  (List.finRange 12).map (fun i => mkSeg i.val 3 i.val 2)

/-- Witness for C3: one segment per index, absorbed in index order. -/
theorem c3_presence_mask_invariant_witness :
    ∃ st2, absorbAll 3 resetState segsC3 = some st2 ∧
      (∀ i : Fin 12, st2.filled_segments.testBit i.val = true ↔ segTouches segsC3 i.val) ∧
      ((1 <<< 12) - 1 ≤ st2.filled_segments ↔ ∀ i : Fin 12, segTouches segsC3 i.val) ∧
      ((1 <<< 12) - 1 ≤ st2.filled_segments ↔ st2.filled_segments = (1 <<< 12) - 1) :=
  c3_presence_mask_invariant 3 (by decide) segsC3 (by decide)

/-- C4: pushing `max_segment_buffering + 1` non-empty segments for one index
into a reset accumulator leaves that slot holding exactly
`max_segment_buffering` entries — the most recently pushed ones, newest at
the front — and its presence bit set (lines 414-424). -/
theorem c4_slot_bounded_history (m i : Nat) (hi : i < 12) (hm : 0 < m)
    (segs : List ScanSegmentParserOutput)
    (hlen : segs.length = m + 1)
    (hall : ∀ s ∈ segs, s.segmentIndex = i ∧ s.scandata ≠ []) :
    ∃ st2, absorbAll m resetState segs = some st2 ∧
      st2.samples ⟨i, hi⟩ = segs.reverse.take m ∧
      (st2.samples ⟨i, hi⟩).length = m ∧
      st2.filled_segments.testBit i = true := by
  have hidx : ∀ s ∈ segs, s.segmentIndex < 12 := fun s hs => by
    rw [(hall s hs).1]; exact hi
  refine ⟨_, absorbAll_eq_foldl m hm segs resetState hidx, ?_, ?_, ?_⟩
  · rw [foldl_absorbTotal_slot m i hi segs resetState hall (by simp [resetState])]
    simp [resetState]
  · rw [foldl_absorbTotal_slot m i hi segs resetState hall (by simp [resetState])]
    simp [resetState]
    omega
  · rw [foldl_absorbTotal_testBit m segs resetState i hidx]
    simp only [resetState, Nat.zero_testBit, Bool.false_or]
    refine decide_eq_true ?_
    obtain ⟨s, hs⟩ := List.exists_mem_of_length_pos
      (by omega : 0 < segs.length)
    exact ⟨s, hs, hall s hs⟩

/-- Segment list used by the C4 witness: four segments for index 5 with a
configured depth of 3. -/
def segsC4 : List ScanSegmentParserOutput :=
  [mkSeg 5 0 0 1, mkSeg 5 0 1 1, mkSeg 5 0 2 1, mkSeg 5 0 3 1]

/-- Witness for C4: depth 3, four pushes to index 5. -/
theorem c4_slot_bounded_history_witness :
    ∃ st2, absorbAll 3 resetState segsC4 = some st2 ∧
      st2.samples ⟨5, by norm_num⟩ = segsC4.reverse.take 3 ∧
      (st2.samples ⟨5, by norm_num⟩).length = 3 ∧
      st2.filled_segments.testBit 5 = true :=
  c4_slot_bounded_history 3 5 (by norm_num) (by decide) segsC4 (by decide) (by decide)

/-- C5: whenever the `// process` step emits a frame, the resulting
accumulator has all twelve slots empty and a zero presence mask — the slot
clearing on line 466 discards any queued history beyond each front element,
and line 481 zeroes the mask. -/
theorem c5_state_reset_after_emit (enabled m : Nat) (st : AssemblerState)
    (seg : ScanSegmentParserOutput) (st2 : AssemblerState) (f : PointCloud2Msg)
    (h : processSegment enabled m st seg = some (st2, some f)) :
    (∀ i : Fin 12, st2.samples i = []) ∧ st2.filled_segments = 0 := by
  unfold processSegment at h
  split at h
  · exact Option.noConfusion h
  · rename_i st1 habs1
    split at h
    · split at h
      · exact Option.noConfusion h
      · rename_i f1 s1 hb
        simp only [Option.some.injEq, Prod.mk.injEq] at h
        obtain ⟨hs, -⟩ := h
        rw [← hs]
        exact buildFrame_state enabled st1 f1 s1 hb
    · simp at h

/-- Accumulator used by the C5 witness: slots 0..10 already hold one segment
each (mask 2047); absorbing a segment for index 11 completes the frame. -/
def stC5 : AssemblerState :=
  { samples := fun i => if i.val < 11 then [mkSeg i.val 10 i.val 1] else [],
    filled_segments := 2047 }

/-- The state-and-frame pair produced by the C5 witness run. -/
def c5Run : AssemblerState × Option PointCloud2Msg :=
  (processSegment POINT_FIELD_ENABLE_ALL 3 stC5 (mkSeg 11 5 0 1)).getD (resetState, none)

/-- The accumulator produced after the C5 witness frame is emitted. -/
def stAfterC5 : AssemblerState := c5Run.1

/-- The frame emitted by the C5 witness run. -/
def frameAfterC5 : PointCloud2Msg :=
  c5Run.2.getD
    { data_len := 0, point_step := 0, row_step := 0, height := 0, width := 0,
      stamp_sec := 0, stamp_nsec := 0, is_bigendian := false, is_dense := false }

/-- Witness for C5: completing the twelfth slot emits a frame and resets the
accumulator. -/
theorem c5_state_reset_after_emit_witness :
    (∀ i : Fin 12, stAfterC5.samples i = []) ∧ stAfterC5.filled_segments = 0 :=
  c5_state_reset_after_emit POINT_FIELD_ENABLE_ALL 3 stC5 (mkSeg 11 5 0 1)
    stAfterC5 frameAfterC5 rfl

/-! ### Running-minimum lemmas for the frame timestamp -/

theorem foldMinNat_le_init (g : Fin 12 → Nat) (l : List (Fin 12)) (a : Nat) :
    foldMinNat g l a ≤ a := by
  induction l generalizing a with
  | nil => exact le_refl a
  | cons i l ih =>
    refine le_trans (ih (if g i < a then g i else a)) ?_
    split <;> omega

theorem foldMinNat_le_mem (g : Fin 12 → Nat) (l : List (Fin 12)) (a : Nat)
    (x : Fin 12) (hx : x ∈ l) : foldMinNat g l a ≤ g x := by
  induction l generalizing a with
  | nil => cases hx
  | cons i l ih =>
    rcases List.mem_cons.mp hx with h1 | h2
    · subst h1
      refine le_trans (foldMinNat_le_init g l _) ?_
      show (if g x < a then g x else a) ≤ g x
      split <;> omega
    · exact ih _ h2

theorem foldMinNat_eq_init_or_mem (g : Fin 12 → Nat) (l : List (Fin 12)) (a : Nat) :
    foldMinNat g l a = a ∨ ∃ x ∈ l, foldMinNat g l a = g x := by
  induction l generalizing a with
  | nil => exact Or.inl rfl
  | cons i l ih =>
    have hstep : foldMinNat g (i :: l) a =
        foldMinNat g l (if g i < a then g i else a) := rfl
    rcases ih (if g i < a then g i else a) with h | ⟨x, hx, hh⟩
    · by_cases hlt : g i < a
      · exact Or.inr ⟨i, List.mem_cons_self i l, by rw [hstep, h, if_pos hlt]⟩
      · exact Or.inl (by rw [hstep, h, if_neg hlt])
    · exact Or.inr ⟨x, List.mem_cons_of_mem i hx, by rw [hstep, hh]⟩

/-- C6: for a frame built from twelve non-empty slots (with `uint32`-sized
timestamp fields, so the 64-bit combination cannot overflow), the emitted
stamp is the minimum over the slots of the front elements of
`sec * 10^9 + nsec`, split back into seconds (line 477) and nanoseconds
(line 478). -/
theorem c6_frame_timestamp_is_min (enabled : Nat) (st : AssemblerState)
    (h : ∀ i : Fin 12, st.samples i ≠ [])
    (hb : ∀ i : Fin 12, ((st.samples i).head (h i)).timestamp_sec < 2 ^ 32 ∧
      ((st.samples i).head (h i)).timestamp_nsec < 2 ^ 32) :
    ∃ f st2, buildFrame enabled st = some (f, st2) ∧
      ∃ j : Fin 12,
        f.stamp_sec = segTs ((st.samples j).head (h j)) / 1000000000 ∧
        f.stamp_nsec = segTs ((st.samples j).head (h j)) % 1000000000 ∧
        ∀ i : Fin 12, segTs ((st.samples j).head (h j)) ≤
          segTs ((st.samples i).head (h i)) := by
  have hlt : ∀ i : Fin 12, segTs ((st.samples i).head (h i)) < UINT64_MAX := by
    intro i
    obtain ⟨hs, hn⟩ := hb i
    have e32 : (2 : Nat) ^ 32 = 4294967296 := by norm_num
    have e64 : (2 : Nat) ^ 64 = 18446744073709551616 := by norm_num
    have hval : ((st.samples i).head (h i)).timestamp_sec * 1000000000 +
        ((st.samples i).head (h i)).timestamp_nsec < 2 ^ 64 - 1 := by
      rw [e32] at hs hn
      rw [e64]
      omega
    exact lt_of_le_of_lt (Nat.mod_le _ _) hval
  rcases foldMinNat_eq_init_or_mem
      (fun i => segTs ((st.samples i).head (h i))) (List.finRange 12) UINT64_MAX with
    h0 | ⟨j, hj, hjeq⟩
  · exfalso
    have h1 : foldMinNat (fun i => segTs ((st.samples i).head (h i)))
        (List.finRange 12) UINT64_MAX ≤ segTs ((st.samples ⟨0, by norm_num⟩).head
          (h ⟨0, by norm_num⟩)) :=
      foldMinNat_le_mem _ _ _ _ (List.mem_finRange _)
    have h2 := hlt ⟨0, by norm_num⟩
    omega
  · refine ⟨_, _, dif_pos h, j, ?_, ?_, ?_⟩
    · exact congrArg (fun x => x / 1000000000) hjeq
    · exact congrArg (fun x => x % 1000000000) hjeq
    · intro i
      rw [← hjeq]
      exact foldMinNat_le_mem _ _ _ _ (List.mem_finRange i)

/-- The accumulator that feeds the C6 witness frame: twelve one-segment slots
with pairwise distinct timestamps, slot 7 the earliest. -/
def stC6 : AssemblerState :=
  { samples := fun i => [mkSeg i.val (if i.val = 7 then 19 else 20) (100 + i.val) 1],
    filled_segments := (1 <<< 12) - 1 }

theorem stC6_nonempty : ∀ i : Fin 12, stC6.samples i ≠ [] := by decide

theorem stC6_bounds : ∀ i : Fin 12,
    ((stC6.samples i).head (stC6_nonempty i)).timestamp_sec < 2 ^ 32 ∧
    ((stC6.samples i).head (stC6_nonempty i)).timestamp_nsec < 2 ^ 32 := by decide

/-- Witness for C6: twelve distinct timestamps, minimum in slot 7. -/
theorem c6_frame_timestamp_is_min_witness :
    ∃ f st2, buildFrame POINT_FIELD_ENABLE_ALL stC6 = some (f, st2) ∧
      ∃ j : Fin 12,
        f.stamp_sec = segTs ((stC6.samples j).head (stC6_nonempty j)) / 1000000000 ∧
        f.stamp_nsec = segTs ((stC6.samples j).head (stC6_nonempty j)) % 1000000000 ∧
        ∀ i : Fin 12, segTs ((stC6.samples j).head (stC6_nonempty j)) ≤
          segTs ((stC6.samples i).head (stC6_nonempty i)) :=
  c6_frame_timestamp_is_min POINT_FIELD_ENABLE_ALL stC6 stC6_nonempty stC6_bounds

/-- C7: the CRC gate.  First conjunct: when the computed CRC32 of the payload
region equals the trailing 4-byte value, the datagram is handed to the
decoder.  Second conjunct: on a mismatch the datagram is discarded —
whatever the decoder would do, the result is `continue` with the accumulator
untouched.  Third conjunct: the checked region is the whole valid message for
the compact encoding (offset 0) and the payload after the 8-byte
header-plus-length prefix for msgpack. -/
theorem c7_crc_gate
    (conv4 crc32 : List Nat → Nat) (decode : List Nat → Option ScanSegmentParserOutput)
    (enabled m btr : Nat) (ump : Bool) (st : AssemblerState)
    (buffer : List Nat) (br : Nat)
    (conv4b crc32b : List Nat → Nat)
    (enb mb btrb : Nat) (umpb : Bool) (stb : AssemblerState)
    (bufferb : List Nat) (brb : Nat)
    (hA : conv4 (buffer.drop (min br btr - 4)) =
      crc32 ((buffer.take (min br btr - 4)).drop (udpPayloadOffset ump)))
    (hB : conv4b (bufferb.drop (min brb btrb - 4)) ≠
      crc32b ((bufferb.take (min brb btrb - 4)).drop (udpPayloadOffset umpb))) :
    (processChecked conv4 crc32 decode enabled m (udpPayloadOffset ump) btr st buffer br =
      match decode buffer with
      | none => some (st, none)
      | some seg => processSegment enabled m st seg) ∧
    (∀ d : List Nat → Option ScanSegmentParserOutput,
      processChecked conv4b crc32b d enb mb (udpPayloadOffset umpb) btrb stb bufferb brb =
        some (stb, none)) ∧
    ((buffer.take (min br btr - 4)).drop (udpPayloadOffset ump) =
      if ump then (buffer.drop 8).take (min br btr - 4 - 8)
      else buffer.take (min br btr - 4)) := by
  refine ⟨?_, ?_, ?_⟩
  · unfold processChecked
    rw [if_neg (not_not_intro hA)]
  · intro d
    unfold processChecked
    rw [if_pos hB]
  · cases ump with
    | false => simp [udpPayloadOffset]
    | true =>
      simp only [udpPayloadOffset, if_true]
      rw [List.drop_take]

/-- Constant-zero checksum stub used by witnesses. -/
def zeroFn : List Nat → Nat := fun _ => 0

/-- Constant-one checksum stub used by witnesses. -/
def oneFn : List Nat → Nat := fun _ => 1

/-- Always-failing decoder stub used by witnesses. -/
def noneDecode : List Nat → Option ScanSegmentParserOutput := fun _ => none

/-- A 24-byte datagram buffer used by the C7 witness. -/
def bufC7 : List Nat := List.replicate 24 2

/-- Witness for C7: matching CRCs (both 0) on the msgpack side, mismatching
CRCs (0 vs 1) on the compact side. -/
theorem c7_crc_gate_witness :
    (processChecked zeroFn zeroFn noneDecode 28 3 (udpPayloadOffset true) 20
        resetState bufC7 24 =
      match noneDecode bufC7 with
      | none => some (resetState, none)
      | some seg => processSegment 28 3 resetState seg) ∧
    (∀ d : List Nat → Option ScanSegmentParserOutput,
      processChecked zeroFn oneFn d 28 3 (udpPayloadOffset false) 20
        resetState bufC7 24 = some (resetState, none)) ∧
    ((bufC7.take (min 24 20 - 4)).drop (udpPayloadOffset true) =
      if true then (bufC7.drop 8).take (min 24 20 - 4 - 8)
      else bufC7.take (min 24 20 - 4)) :=
  c7_crc_gate zeroFn zeroFn noneDecode 28 3 20 true resetState bufC7 24
    zeroFn oneFn 28 3 20 false resetState bufC7 24 rfl (by decide)

/-! ### Chunk-accumulation lemmas -/

theorem fillChunks_spec (required : Nat) (chunks : List (List Nat)) :
    ∀ buffer : List Nat, ∃ k,
      fillChunks required chunks buffer =
        (buffer ++ (chunks.take k).flatten, chunks.drop k) ∧
      (buffer.length < required + 4 → chunks ≠ [] → 0 < k) := by
  induction chunks with
  | nil =>
    intro buffer
    exact ⟨0, by simp [fillChunks], by simp⟩
  | cons c rest ih =>
    intro buffer
    have hstep : fillChunks required (c :: rest) buffer =
        if buffer.length < required + 4 then fillChunks required rest (buffer ++ c)
        else (buffer, c :: rest) := rfl
    by_cases hlt : buffer.length < required + 4
    · obtain ⟨k, hk1, -⟩ := ih (buffer ++ c)
      refine ⟨k + 1, ?_, fun _ _ => Nat.succ_pos k⟩
      rw [hstep, if_pos hlt, hk1]
      simp [List.append_assoc]
    · refine ⟨0, ?_, fun hcon _ => absurd hcon hlt⟩
      rw [hstep, if_neg hlt]
      simp

theorem accumulateCompact_decodes (probe : List Nat → ProbeResult)
    (h1 : ∀ b n, probe b = .need n → n ≤ 1024 * 1024 ∧ b.length < n + 4)
    (fuel : Nat) :
    ∀ (buffer : List Nat) (chunks : List (List Nat)),
      (∃ L, probe (buffer ++ chunks.flatten) = .success L) →
      chunks.length < fuel →
      ∃ b L, accumulateCompact probe fuel buffer chunks = .decoded b L := by
  induction fuel with
  | zero => intro _ _ _ hf; omega
  | succ fuel ih =>
    intro buffer chunks h2 hf
    have hstep : accumulateCompact probe (fuel + 1) buffer chunks =
        match probe buffer with
        | .success payload_length_bytes => .decoded buffer payload_length_bytes
        | .need n =>
          if 1024 * 1024 < n then .overCap
          else accumulateCompact probe fuel
            (fillChunks n chunks buffer).1 (fillChunks n chunks buffer).2 := rfl
    cases hp : probe buffer with
    | success L =>
      exact ⟨buffer, L, by rw [hstep, hp]⟩
    | need n =>
      obtain ⟨hcap, hblen⟩ := h1 buffer n hp
      cases chunks with
      | nil =>
        obtain ⟨L, hL⟩ := h2
        rw [List.flatten_nil, List.append_nil, hp] at hL
        exact ProbeResult.noConfusion hL
      | cons c rest =>
        obtain ⟨k, hk1, hk2⟩ := fillChunks_spec n (c :: rest) buffer
        have hkpos : 0 < k := hk2 hblen (by simp)
        have hstep2 : accumulateCompact probe (fuel + 1) buffer (c :: rest) =
            accumulateCompact probe fuel
              (fillChunks n (c :: rest) buffer).1 (fillChunks n (c :: rest) buffer).2 := by
          rw [hstep, hp]
          exact if_neg (by omega)
        rw [hstep2, hk1]
        refine ih (buffer ++ ((c :: rest).take k).flatten) ((c :: rest).drop k) ?_ ?_
        · obtain ⟨L, hL⟩ := h2
          refine ⟨L, ?_⟩
          rw [List.append_assoc, ← List.flatten_append, List.take_append_drop]
          exact hL
        · rw [List.length_drop]
          simp only [List.length_cons] at hf ⊢
          omega

/-- C8: compact probe-based accumulation.  First conjunct: a probe demanding
more than the 1 MiB cap aborts the datagram (the branch with the diagnostic
re-probe, lines 325-331), leaving it undecoded.  Second conjunct: the
abandoned datagram is answered with `continue` — the accumulator state is
unchanged and the loop moves to the next datagram.  Third conjunct: if every
probe demand stays within the cap and asks only for bytes not yet received,
and the arriving chunks eventually satisfy the probe before the
timeout/cancellation bound expires, the datagram is decoded. -/
theorem c8_chunk_accumulation
    (probeA : List Nat → ProbeResult) (fuelA nA : Nat)
    (bufferA : List Nat) (chunksA : List (List Nat))
    (conv4 crc32 : List Nat → Nat) (decode : List Nat → Option ScanSegmentParserOutput)
    (enabledA mA : Nat) (stA : AssemblerState)
    (probeB : List Nat → ProbeResult) (fuelB : Nat)
    (bufferB : List Nat) (chunksB : List (List Nat))
    (hA1 : 0 < fuelA) (hA2 : probeA bufferA = .need nA) (hA3 : 1024 * 1024 < nA)
    (hB1 : ∀ b n, probeB b = .need n → n ≤ 1024 * 1024 ∧ b.length < n + 4)
    (hB2 : ∃ L, probeB (bufferB ++ chunksB.flatten) = .success L)
    (hB3 : chunksB.length < fuelB) :
    accumulateCompact probeA fuelA bufferA chunksA = .overCap ∧
    processCompactDatagram probeA conv4 crc32 decode enabledA mA fuelA stA
      bufferA chunksA = some (stA, none) ∧
    ∃ b L, accumulateCompact probeB fuelB bufferB chunksB = .decoded b L := by
  have hover : accumulateCompact probeA fuelA bufferA chunksA = .overCap := by
    cases fuelA with
    | zero => omega
    | succ f =>
      have hstep : accumulateCompact probeA (f + 1) bufferA chunksA =
          match probeA bufferA with
          | .success payload_length_bytes => .decoded bufferA payload_length_bytes
          | .need n =>
            if 1024 * 1024 < n then .overCap
            else accumulateCompact probeA f
              (fillChunks n chunksA bufferA).1 (fillChunks n chunksA bufferA).2 := rfl
      rw [hstep, hA2]
      exact if_pos hA3
  refine ⟨hover, ?_, accumulateCompact_decodes probeB hB1 fuelB bufferB chunksB hB2 hB3⟩
  unfold processCompactDatagram
  rw [hover]

/-- Over-cap probe stub for the C8 witness. -/
def probeAC8 : List Nat → ProbeResult := fun _ => .need (1024 * 1024 + 1)

/-- Probe stub for the C8 witness that succeeds once 20 bytes are present and
otherwise demands 16 payload bytes. -/
def probeBC8 : List Nat → ProbeResult :=
  fun b => if 20 ≤ b.length then .success 7 else .need 16

theorem probeBC8_spec : ∀ b n, probeBC8 b = .need n →
    n ≤ 1024 * 1024 ∧ b.length < n + 4 := by
  intro b n hneed
  by_cases hl : 20 ≤ b.length
  · simp [probeBC8, hl] at hneed
  · simp [probeBC8, hl] at hneed
    omega

/-- A 13-byte initial datagram fragment for the C8 witness. -/
def bufC8 : List Nat := List.replicate 13 0

/-- Three 3-byte chunks for the C8 witness: three additional reads reach 22
bytes, beyond the 20 the probe demands. -/
def chunksC8 : List (List Nat) :=
  [List.replicate 3 1, List.replicate 3 2, List.replicate 3 3]

/-- Witness for C8: the over-cap probe aborts immediately; the bounded probe
decodes after three additional reads. -/
theorem c8_chunk_accumulation_witness :
    accumulateCompact probeAC8 1 bufC8 chunksC8 = .overCap ∧
    processCompactDatagram probeAC8 zeroFn zeroFn noneDecode 28 3 1 resetState
      bufC8 chunksC8 = some (resetState, none) ∧
    ∃ b L, accumulateCompact probeBC8 4 bufC8 chunksC8 = .decoded b L :=
  c8_chunk_accumulation probeAC8 1 (1024 * 1024 + 1) bufC8 chunksC8
    zeroFn zeroFn noneDecode 28 3 resetState probeBC8 4 bufC8 chunksC8
    (by decide) rfl (by decide) probeBC8_spec ⟨7, by decide⟩ (by decide)

end Multiscan
